import Mathlib

/-!
Shallow embedding of `scripts/generate_image.py` (nano-image-generate).

Conventions of the embedding:
* Python `bytes` are `List Nat` (each entry one byte value).
* Base64 transport is abstracted away: wherever the script carries
  base64-encoded data that it only ever decodes back (`load_image_as_base64`
  encodes, the response extractor decodes), the model carries the decoded
  bytes directly, since `b64encode`/`b64decode` are mutually inverse.
* `sys.exit(1)` / uncaught exceptions are modelled with `Option`/`Except`
  (`none` / `.error`) or dedicated outcome constructors; each constructor's
  doc comment records the observable effects (stderr text, exit status).
* `os.environ.get`, `argparse` optionals and absent JSON keys are `Option`.
* The filesystem is a function `String → Option (List Nat)`; `none` means
  the path does not exist.
* Character classes (`\w`, `\s`, `str.strip`, `str.lower`) are modelled on
  their ASCII fragment, which is where Python and this model agree.
* `pathlib.Path` (POSIX flavour) is modelled by `PyPath`: a parsed root
  plus components, exactly the state a `PurePosixPath` object holds;
  rendering to a string collapses spurious slashes and `.` components just
  as `str(Path(...))` does.
-/

/-- The hardcoded fallback returned by `get_api_key` when the environment
variable is unset (line 56 of the script). -/
def placeholderKey : String := "YOUR_GEMINI_API_KEY_HERE"

/-- `get_api_key()`: returns `GEMINI_API_KEY` from the environment when it
is set and non-empty (`if env_key:`), otherwise the hardcoded placeholder.
The environment is passed explicitly as `Option String`. -/
def get_api_key (env : Option String) : String :=
  match env with
  | some env_key => if env_key ≠ "" then env_key else placeholderKey
  | none => placeholderKey

/-- Lines 116-124 of `generate_image`: if the explicit `api_key` argument is
falsy (`None` or `""`), fall back to `get_api_key()`; then treat the
placeholder or an empty key as absent. `none` models the fatal
configuration error: the script prints, to stderr, an error directing the
user to set `GEMINI_API_KEY`, and calls `sys.exit(1)` before building any
request. -/
def resolve_api_key (api_key : Option String) (env : Option String) : Option String :=
  let key : String :=
    match api_key with
    | some k => if k ≠ "" then k else get_api_key env
    | none => get_api_key env
  if key = placeholderKey ∨ key = "" then none else some key

/-- The 8-byte PNG signature `b'\x89PNG\r\n\x1a\n'`. -/
def pngSignature : List Nat := [0x89, 0x50, 0x4E, 0x47, 0x0D, 0x0A, 0x1A, 0x0A]

/-- `b'RIFF'`. -/
def riffSignature : List Nat := [0x52, 0x49, 0x46, 0x46]

/-- `b'WEBP'`. -/
def webpSignature : List Nat := [0x57, 0x45, 0x42, 0x50]

/-- `b'GIF87a'`. -/
def gif87Signature : List Nat := [0x47, 0x49, 0x46, 0x38, 0x37, 0x61]

/-- `b'GIF89a'`. -/
def gif89Signature : List Nat := [0x47, 0x49, 0x46, 0x38, 0x39, 0x61]

/-- `detect_image_format(image_bytes)`: classify a byte buffer by its magic
bytes, defaulting to PNG. Python slicing `image_bytes[a:b]` never raises
and simply yields a shorter slice on short buffers, which `List.take` /
`List.drop` reproduce exactly; the function is total and pure. -/
def detect_image_format (image_bytes : List Nat) : String × String :=
  if image_bytes.take 8 = pngSignature then
    ("image/png", ".png")
  else if image_bytes.take 2 = [0xFF, 0xD8] then
    ("image/jpeg", ".jpg")
  else if image_bytes.take 4 = riffSignature ∧ (image_bytes.drop 8).take 4 = webpSignature then
    ("image/webp", ".webp")
  else if image_bytes.take 6 = gif87Signature ∨ image_bytes.take 6 = gif89Signature then
    ("image/gif", ".gif")
  else
    ("image/png", ".png")

/-- `get_extension(mime_type)`: dictionary lookup with default `".png"`. -/
def get_extension (mime_type : String) : String :=
  if mime_type = "image/png" then ".png"
  else if mime_type = "image/jpeg" then ".jpg"
  else if mime_type = "image/webp" then ".webp"
  else if mime_type = "image/gif" then ".gif"
  else ".png"

/-- `load_image_as_base64(image_path)`: `none` models the fatal exit
(`Error: Reference image not found: ...` on stderr, `sys.exit(1)`) when the
path does not exist; otherwise returns the file's bytes (standing for their
base64 encoding, see the header note) together with the sniffed MIME type. -/
def load_image_as_base64 (fs : String → Option (List Nat)) (image_path : String) :
    Option (List Nat × String) :=
  match fs image_path with
  | none => none
  | some image_bytes => some (image_bytes, (detect_image_format image_bytes).1)

/-- The reference-image loop of `generate_image` (lines 137-145): load each
path in order, stopping with the fatal exit at the first missing file.
`.error p` carries the first missing path. -/
def load_all_refs (fs : String → Option (List Nat)) :
    List String → Except String (List (List Nat × String))
  | [] => .ok []
  | p :: rest =>
    match load_image_as_base64 fs p with
    | none => .error p
    | some bm =>
      match load_all_refs fs rest with
      | .error q => .error q
      | .ok rs => .ok (bm :: rs)

/-- A part of the outgoing request's `contents[0].parts` list. -/
inductive ReqPart where
  | text (s : String)
  | inlineData (mimeType : String) (data : List Nat)
deriving DecidableEq

/-- Lines 129-145 of `generate_image`: build the request parts (prompt text
first, then one inline part per reference image). The `Bool` records
whether the `Warning: Maximum 14 reference images supported, using first
14` line was printed to stderr; the truncation to the first 14 entries
happens before any file is loaded. An empty list models both
`reference_images=None` and `[]` (both falsy, both skip the block). -/
def build_request_parts (fs : String → Option (List Nat)) (prompt : String)
    (reference_images : List String) : Bool × Except String (List ReqPart) :=
  let used :=
    if reference_images.length > 14 then reference_images.take 14 else reference_images
  (decide (reference_images.length > 14),
    match load_all_refs fs used with
    | .error p => .error p
    | .ok loaded =>
      .ok (ReqPart.text prompt :: loaded.map (fun bm => ReqPart.inlineData bm.2 bm.1)))

/-- What `generate_image` does before (and whether it reaches) the HTTP
POST of line 165. -/
inductive PreNetwork where
  /-- The fatal missing/placeholder-key exit of lines 119-124: prints the
  configuration error to stderr, exits 1; no request is issued. -/
  | exitNoKey
  /-- The fatal exit of `load_image_as_base64` for the first missing
  reference path: prints the error to stderr, exits 1; no request is
  issued. -/
  | exitMissingRef (path : String)
  /-- The HTTP POST is issued, with this key, these content parts and this
  `imageConfig`. -/
  | request (key : String) (parts : List ReqPart) (aspect_ratio : String) (image_size : String)
deriving DecidableEq

/-- `true` exactly on the `request` constructor: the network call was
reached. -/
def PreNetwork.isRequest : PreNetwork → Bool
  | .request _ _ _ _ => true
  | _ => false

/-- The phase of `generate_image(prompt, aspect_ratio, image_size,
reference_images, model_id, api_key)` that runs before the network call,
in source order: key resolution first (lines 116-124), then reference
loading (lines 129-145), then the POST. -/
def generate_image_pre (api_key env : Option String) (fs : String → Option (List Nat))
    (prompt : String) (reference_images : List String)
    (aspect_ratio image_size : String) : PreNetwork :=
  match resolve_api_key api_key env with
  | none => .exitNoKey
  | some key =>
    match (build_request_parts fs prompt reference_images).2 with
    | .error p => .exitMissingRef p
    | .ok parts => .request key parts aspect_ratio image_size

/-- The `inlineData` object of a response part: `mimeType` is optional
(`inline_data.get("mimeType", "image/png")` supplies the default), `data`
holds the decoded image bytes (base64 transport abstracted, header note). -/
structure InlineData where
  mimeType : Option String
  data : List Nat
deriving DecidableEq

/-- A part of `candidates[0]["content"]["parts"]`: a JSON object that may
carry an `inlineData` key and/or a `text` key. -/
structure RespPart where
  inlineData : Option InlineData
  text : Option String
deriving DecidableEq

/-- One entry of the response's `candidates` list; `parts` is
`candidate.get("content", {}).get("parts", [])`, with absent keys giving
`[]`. -/
structure Candidate where
  parts : List RespPart
deriving DecidableEq

/-- The parsed JSON response body; `candidates` is
`result.get("candidates", [])`, a missing key giving `[]`. -/
structure ApiResponse where
  candidates : List Candidate
deriving DecidableEq

/-- The extraction loop of lines 184-193: walk the parts in order and
return, for the first part having an `inlineData` key, the decoded bytes,
the MIME type sniffed from those bytes (this, not the reported value, is
what the function returns), and whether the mismatch note
(`Note: API reported ..., actual format is ...`) was printed to stderr.
`none`: no part carries inline data. -/
def extract_image : List RespPart → Option (List Nat × String × Bool)
  | [] => none
  | part :: rest =>
    match part.inlineData with
    | some inline_data =>
      let image_bytes := inline_data.data
      let actual_mime := (detect_image_format image_bytes).1
      let reported_mime := inline_data.mimeType.getD "image/png"
      some (image_bytes, actual_mime, decide (actual_mime ≠ reported_mime))
    | none => extract_image rest

/-- Outcome of the response-handling tail of `generate_image`
(lines 176-201). -/
inductive GenResult where
  /-- Lines 186-193 returned: decoded bytes, sniffed MIME, and whether the
  mismatch note was printed. -/
  | ok (image_bytes : List Nat) (mime_type : String) (mismatchNote : Bool)
  /-- Lines 177-180: `Error: No candidates in response` plus the full JSON
  response body are printed to stderr and the process exits 1; no file is
  written and nothing is printed to stdout. -/
  | exitNoCandidates (resp : ApiResponse)
  /-- Lines 196-201: any text part is echoed to stderr, then
  `Error: No image data in response`, exit 1; no file is written and
  nothing is printed to stdout. -/
  | exitNoImage
deriving DecidableEq

/-- Lines 176-201 of `generate_image`: candidates check, then the
extraction loop over `candidates[0]`'s parts. -/
def process_response (result : ApiResponse) : GenResult :=
  match result.candidates with
  | [] => .exitNoCandidates result
  | c :: _ =>
    match extract_image c.parts with
    | some (image_bytes, mime_type, note) => .ok image_bytes mime_type note
    | none => .exitNoImage

/-- `True` for the ASCII characters matched by Python's `\w`:
`[A-Za-z0-9_]`. -/
def pyWordChar (c : Char) : Bool :=
  decide ('a' ≤ c ∧ c ≤ 'z') || decide ('A' ≤ c ∧ c ≤ 'Z') ||
    decide ('0' ≤ c ∧ c ≤ '9') || c == '_'

/-- `True` for the ASCII characters matched by Python's `\s` (also the
ASCII characters removed by `str.strip()`): space, tab, newline, carriage
return, vertical tab, form feed. -/
def pySpace (c : Char) : Bool :=
  c == ' ' || c == '\t' || c == '\n' || c == '\r' || c == '\x0b' || c == '\x0c'

/-- `str.strip()` on the ASCII fragment: drop leading and trailing
whitespace. -/
def pyStrip (cs : List Char) : List Char :=
  ((cs.dropWhile pySpace).reverse.dropWhile pySpace).reverse

/-- `re.sub(r'[-\s]+', '-', s)`: every maximal run of hyphens/whitespace
becomes a single `'-'`. The `Bool` argument records whether the previous
character belonged to such a run. -/
def collapseRuns : Bool → List Char → List Char
  | _, [] => []
  | prevSep, c :: rest =>
    if pySpace c || c == '-' then
      (if prevSep then [] else ['-']) ++ collapseRuns true rest
    else
      c :: collapseRuns false rest

/-- Lines 294-295 of `main`: `slug = re.sub(r'[^\w\s-]', '', prompt)
.strip().lower()` then `slug = re.sub(r'[-\s]+', '-', slug)[:50] or
"untitled"`. -/
def makeSlug (prompt : String) : String :=
  let kept := prompt.toList.filter (fun c => pyWordChar c || pySpace c || c == '-')
  let lowered := (pyStrip kept).map Char.toLower
  let truncated := (collapseRuns false lowered).take 50
  if truncated.isEmpty then "untitled" else String.mk truncated

/-- A `pathlib.PurePosixPath` value: the parsed root (`""`, `"/"` or
`"//"`), plus the non-empty, non-`"."` components. -/
structure PyPath where
  root : String
  comps : List String
deriving DecidableEq

/-- Split a character list on `'/'`, keeping empty pieces (the semantics
of Python's `"s".split("/")`); the accumulator holds the current piece
reversed. -/
def splitSlashAux : List Char → List Char → List String
  | [], acc => [String.mk acc.reverse]
  | c :: rest, acc =>
    if c = '/' then String.mk acc.reverse :: splitSlashAux rest []
    else splitSlashAux rest (c :: acc)

/-- The root of a POSIX path string: `"//"` for exactly two leading
slashes, `"/"` for one or for three or more, `""` for a relative path
(CPython `PurePosixPath` parsing). -/
def pathRoot (s : String) : String :=
  match s.toList with
  | '/' :: '/' :: '/' :: _ => "/"
  | '/' :: '/' :: _ => "//"
  | '/' :: _ => "/"
  | _ => ""

/-- `Path(s)` parsing: split on slashes and drop empty and `"."`
components. -/
def parsePath (s : String) : PyPath :=
  ⟨pathRoot s, (splitSlashAux s.toList []).filter (fun c => !(c == "") && !(c == "."))⟩

/-- `str(path)`: root plus components joined by `/`; the empty relative
path renders as `"."`. -/
def renderPath (p : PyPath) : String :=
  if p.root = "" ∧ p.comps = [] then "." else p.root ++ String.intercalate "/" p.comps

/-- `path.name`: the last component, or `""` when there is none. -/
def pyName (p : PyPath) : String := (p.comps.getLast?).getD ""

/-- Index of the first `'.'` in a character list (`str.find`,
restricted to the dot). -/
def idxOfDot : List Char → Option Nat
  | [] => none
  | c :: rest => if c = '.' then some 0 else (idxOfDot rest).map (· + 1)

/-- Index of the last `'.'` (`name.rfind('.')` when a dot exists). -/
def lastDotIdx (cs : List Char) : Option Nat :=
  (idxOfDot cs.reverse).map (fun j => cs.length - 1 - j)

/-- CPython's stem/suffix split of a file name: the suffix starts at the
last dot provided that dot is neither the first nor the last character;
otherwise the suffix is empty. -/
def suffixSplit (name : List Char) : List Char × List Char :=
  match lastDotIdx name with
  | some i => if 0 < i ∧ i < name.length - 1 then (name.take i, name.drop i) else (name, [])
  | none => (name, [])

/-- `path.suffix` of a bare file name. -/
def pathSuffix (name : String) : String := String.mk (suffixSplit name.toList).2

/-- `path.with_suffix(suffix)`: `none` models the `ValueError` raised when
the path has an empty name; otherwise the name's old suffix (if any) is
replaced by `suffix`. -/
def withSuffix (p : PyPath) (suffix : String) : Option PyPath :=
  match p.comps.getLast? with
  | none => none
  | some name =>
    some ⟨p.root, p.comps.dropLast ++ [String.mk (suffixSplit name.toList).1 ++ suffix]⟩

/-- Lines 292-298 of `main`: the auto-generated destination
`Path("generated") / f"{slug}-{timestamp}"` (extension added later). -/
def autoOutputPath (prompt : String) (timestamp : Nat) : PyPath :=
  ⟨"", ["generated", makeSlug prompt ++ "-" ++ toString timestamp]⟩

/-- Observable outcome of `main` from the parsed API response onward
(lines 176-201 inside `generate_image`, then lines 287-316 of `main`). -/
inductive MainOutcome where
  /-- Exit 0; `image_bytes` were written to `path`, `str(path)` was printed
  to stdout, and `extNote` says whether the
  `Note: Using ... extension (actual format: ...)` line was printed to
  stderr. -/
  | success (path : PyPath) (image_bytes : List Nat) (extNote : Bool)
  /-- The no-candidates exit of `generate_image`: stderr gets the error and
  the full response body, exit 1, no file written, no stdout. -/
  | failNoCandidates (resp : ApiResponse)
  /-- The no-image-part exit of `generate_image`: exit 1, no file written,
  no stdout. -/
  | failNoImage
  /-- `with_suffix` raised `ValueError` (output path with an empty name):
  uncaught exception, non-zero exit, no file written. -/
  | failBadPath
deriving DecidableEq

/-- Lines 288-298 of `main`: `Path(args.output)` when `args.output` is
truthy, else the auto-generated destination. -/
def choose_base (args_output : Option String) (prompt : String) (timestamp : Nat) : PyPath :=
  match args_output with
  | some o => if o ≠ "" then parsePath o else autoOutputPath prompt timestamp
  | none => autoOutputPath prompt timestamp

/-- Line 305 of `main`: `args.output != str(output_path)` decides whether
the `Note: Using ... extension` line is printed; in Python, `None` (and
likewise `""`) differs from every rendered path string. -/
def extNoteFlag (args_output : Option String) (output_path : PyPath) : Bool :=
  match args_output with
  | some o => decide (o ≠ renderPath output_path)
  | none => true

/-- `main` from the parsed API response onward: extract the image, choose
the base output path, force the extension derived from the sniffed MIME
type (`output_path.with_suffix(correct_ext)`), then write and print. -/
def main_after_response (args_output : Option String) (prompt : String)
    (timestamp : Nat) (result : ApiResponse) : MainOutcome :=
  match process_response result with
  | .exitNoCandidates resp => .failNoCandidates resp
  | .exitNoImage => .failNoImage
  | .ok image_bytes mime_type _ =>
    match withSuffix (choose_base args_output prompt timestamp) (get_extension mime_type) with
    | none => .failBadPath
    | some output_path =>
      .success output_path image_bytes (extNoteFlag args_output output_path)

/-- Fifteen reference paths, used by the C6 counterexample. -/
def refs15 : List String :=
  ["r01", "r02", "r03", "r04", "r05", "r06", "r07", "r08", "r09", "r10", "r11", "r12",
    "r13", "r14", "r15"]

/-- A filesystem on which `r01`..`r14` are PNG files and `r15` is missing. -/
def fsMissing15 : String → Option (List Nat) :=
  fun p => if p = "r15" then none else if p ∈ refs15 then some pngSignature else none

/-- The sample response used by concrete end-to-end evaluations: one
candidate whose single part carries a PNG image with a correctly reported
MIME type. -/
def samplePngResponse : ApiResponse :=
  ⟨[⟨[⟨some ⟨some "image/png", pngSignature⟩, none⟩]⟩]⟩

/-! ## Helper lemmas -/

/-- A longer slice pins down every shorter slice. -/
theorem take_of_take {b s : List Nat} {n : Nat} (m : Nat) (h : b.take n = s) (hm : m ≤ n) :
    b.take m = s.take m := by
  subst h
  rw [List.take_take, Nat.min_eq_left hm]

/-- The two tables agree: the extension the sniffer pairs with a MIME type
is the one `get_extension` returns for it. -/
theorem get_ext_detect (b : List Nat) :
    get_extension (detect_image_format b).1 = (detect_image_format b).2 := by
  unfold detect_image_format
  split_ifs <;> rfl

/-- `get_extension` only ever produces one of the four extensions. -/
theorem get_extension_cases (m : String) :
    get_extension m = ".png" ∨ get_extension m = ".jpg" ∨
      get_extension m = ".webp" ∨ get_extension m = ".gif" := by
  unfold get_extension
  split_ifs <;> simp

/-- The MIME type `extract_image` returns is always the sniffed one. -/
theorem extract_image_mime :
    ∀ (parts : List RespPart) (b : List Nat) (m : String) (note : Bool),
      extract_image parts = some (b, m, note) → m = (detect_image_format b).1
  | [], _, _, _, h => by simp [extract_image] at h
  | part :: rest, b, m, note, h => by
    unfold extract_image at h
    cases hinl : part.inlineData with
    | some d =>
      rw [hinl] at h
      simp only [Option.some.injEq, Prod.mk.injEq] at h
      rw [← h.1, ← h.2.1]
    | none =>
      rw [hinl] at h
      exact extract_image_mime rest b m note h

/-- The MIME type in a successful `process_response` is the sniffed one. -/
theorem process_response_mime (r : ApiResponse) (b : List Nat) (m : String) (note : Bool)
    (h : process_response r = .ok b m note) : m = (detect_image_format b).1 := by
  obtain ⟨cands⟩ := r
  cases cands with
  | nil => exact absurd h (by simp [process_response])
  | cons c tail =>
    have h' : (match extract_image c.parts with
        | some (image_bytes, mime_type, n) => GenResult.ok image_bytes mime_type n
        | none => GenResult.exitNoImage) = GenResult.ok b m note := h
    cases he : extract_image c.parts with
    | none => rw [he] at h'; exact absurd h' (by simp)
    | some t =>
      obtain ⟨b', m', n'⟩ := t
      rw [he] at h'
      simp only [GenResult.ok.injEq] at h'
      rw [← h'.1, ← h'.2.1]
      exact extract_image_mime c.parts b' m' n' he

/-- `idxOfDot` finds the dot right after a dot-free block. -/
theorem idxOfDot_append (l1 l2 : List Char) (h : '.' ∉ l1) :
    idxOfDot (l1 ++ '.' :: l2) = some l1.length := by
  induction l1 with
  | nil => simp [idxOfDot]
  | cons c rest ih =>
    have hc : c ≠ '.' := fun hc => h (hc ▸ List.mem_cons_self c rest)
    have hrest : '.' ∉ rest := fun hm => h (List.mem_cons_of_mem c hm)
    rw [List.cons_append, idxOfDot, if_neg hc, ih hrest]
    simp

/-- CPython's stem/suffix split recognizes a dot-free, non-empty suffix
after a non-empty stem. -/
theorem suffixSplit_append (stem t : List Char) (hstem : stem ≠ []) (ht : t ≠ [])
    (hdot : '.' ∉ t) : suffixSplit (stem ++ '.' :: t) = (stem, '.' :: t) := by
  have hrev : (stem ++ '.' :: t).reverse = t.reverse ++ '.' :: stem.reverse := by
    rw [List.reverse_append, List.reverse_cons, List.append_assoc]
    simp
  have hidx : idxOfDot (stem ++ '.' :: t).reverse = some t.length := by
    rw [hrev, idxOfDot_append _ _ (by simpa using hdot), List.length_reverse]
  have hlen : (stem ++ '.' :: t).length = stem.length + t.length + 1 := by
    simp [List.length_append]
    omega
  have hlast : lastDotIdx (stem ++ '.' :: t) = some stem.length := by
    rw [lastDotIdx, hidx, Option.map_some', hlen]
    congr 1
    omega
  have hs : 0 < stem.length := List.length_pos.mpr hstem
  have htl : 0 < t.length := List.length_pos.mpr ht
  unfold suffixSplit
  rw [hlast]
  simp only []
  rw [if_pos (by rw [hlen]; omega)]
  rw [List.take_left, List.drop_left]

/-- The stem of a non-empty name is non-empty. -/
theorem suffixSplit_fst_ne_nil (name : List Char) (h : name ≠ []) :
    (suffixSplit name).1 ≠ [] := by
  unfold suffixSplit
  cases hidx : lastDotIdx name with
  | none => simpa
  | some i =>
    simp only []
    by_cases hc : 0 < i ∧ i < name.length - 1
    · rw [if_pos hc]
      intro htake
      have hlen0 := congrArg List.length htake
      rw [List.length_take] at hlen0
      simp only [List.length_nil] at hlen0
      have hlen : 0 < name.length := List.length_pos.mpr h
      rcases Nat.min_eq_zero_iff.mp hlen0 with h0 | h0 <;> omega
    · rw [if_neg hc]
      simpa

/-- The last element of a list of non-empty strings is non-empty. -/
theorem getLast?_ne_empty {l : List String} {name : String} (h : ∀ x ∈ l, x ≠ "")
    (hl : l.getLast? = some name) : name ≠ "" := by
  obtain ⟨hne, hx⟩ := List.mem_getLast?_eq_getLast (show name ∈ l.getLast? by rw [hl]; rfl)
  rw [hx]
  exact h _ (List.getLast_mem hne)

/-- Parsing a path string keeps only non-empty components. -/
theorem parsePath_comps_ne (s : String) : ∀ x ∈ (parsePath s).comps, x ≠ "" := by
  intro x hx
  simp only [parsePath, List.mem_filter, Bool.and_eq_true, Bool.not_eq_true',
    beq_eq_false_iff_ne] at hx
  exact hx.2.1

/-- The auto-generated destination has only non-empty components. -/
theorem autoOutputPath_comps_ne (prompt : String) (ts : Nat) :
    ∀ x ∈ (autoOutputPath prompt ts).comps, x ≠ "" := by
  intro x hx
  simp only [autoOutputPath, List.mem_cons, List.not_mem_nil, or_false] at hx
  rcases hx with h | h
  · rw [h]
    intro hc
    exact absurd (congrArg String.length hc) (by decide)
  · rw [h]
    intro hc
    have hdata := congrArg String.data hc
    rw [String.data_append, String.data_append] at hdata
    simp at hdata

/-- Whatever base path `main` chooses, its components are non-empty. -/
theorem choose_base_comps_ne (ao : Option String) (prompt : String) (ts : Nat) :
    ∀ x ∈ (choose_base ao prompt ts).comps, x ≠ "" := by
  unfold choose_base
  cases ao with
  | none => exact autoOutputPath_comps_ne prompt ts
  | some o =>
    show ∀ x ∈ (if o ≠ "" then parsePath o else autoOutputPath prompt ts).comps, x ≠ ""
    by_cases ho : o ≠ ""
    · rw [if_pos ho]
      exact parsePath_comps_ne o
    · rw [if_neg ho]
      exact autoOutputPath_comps_ne prompt ts

/-- Appending a dot-free extension to a non-empty stem yields a name with
exactly that suffix. -/
theorem pathSuffix_mk_append (stem : List Char) (ext : String) (hstem : stem ≠ [])
    (t : List Char) (hext : ext.toList = '.' :: t) (ht : t ≠ []) (hdot : '.' ∉ t) :
    pathSuffix (String.mk stem ++ ext) = ext := by
  have hdata : (String.mk stem ++ ext).toList = stem ++ '.' :: t := by
    show (String.mk stem ++ ext).data = stem ++ '.' :: t
    rw [String.data_append]
    show stem ++ ext.data = stem ++ '.' :: t
    rw [show ext.data = '.' :: t from hext]
  rw [pathSuffix, hdata, suffixSplit_append stem t hstem ht hdot]
  exact String.ext (show ('.' :: t) = ext.data from hext.symm)

/-- `with_suffix` forces the name of the result to carry exactly the new
extension, provided the path's components are non-empty and the extension
is a dot followed by a non-empty dot-free tail. -/
theorem withSuffix_pathSuffix (p : PyPath) (ext : String) (q : PyPath)
    (hcomps : ∀ x ∈ p.comps, x ≠ "") (h : withSuffix p ext = some q)
    (t : List Char) (hext : ext.toList = '.' :: t) (ht : t ≠ []) (hdot : '.' ∉ t) :
    pathSuffix (pyName q) = ext := by
  unfold withSuffix at h
  cases hl : p.comps.getLast? with
  | none => rw [hl] at h; exact absurd h (by simp)
  | some name =>
    rw [hl] at h
    simp only [Option.some.injEq] at h
    have hname : name ≠ "" := getLast?_ne_empty hcomps hl
    have hnl : name.toList ≠ [] := fun hh => hname (String.ext hh)
    rw [← h]
    show pathSuffix (((p.comps.dropLast ++
      [String.mk (suffixSplit name.toList).1 ++ ext]).getLast?).getD "") = ext
    rw [List.getLast?_concat]
    show pathSuffix (String.mk (suffixSplit name.toList).1 ++ ext) = ext
    exact pathSuffix_mk_append _ ext (suffixSplit_fst_ne_nil _ hnl) t hext ht hdot

/-- A successful reference load pins down, entry by entry and in order,
the bytes and MIME type of each loaded reference. -/
theorem load_all_refs_spec (fs : String → Option (List Nat)) :
    ∀ (l : List String) (loaded : List (List Nat × String)),
      load_all_refs fs l = .ok loaded →
      List.Forall₂ (fun pth bm => fs pth = some bm.1 ∧ bm.2 = (detect_image_format bm.1).1)
        l loaded
  | [], loaded, h => by
    simp only [load_all_refs, Except.ok.injEq] at h
    rw [← h]
    exact List.Forall₂.nil
  | p :: rest, loaded, h => by
    unfold load_all_refs at h
    cases hl : load_image_as_base64 fs p with
    | none => rw [hl] at h; exact absurd h (by simp)
    | some bm =>
      rw [hl] at h
      cases hrec : load_all_refs fs rest with
      | error e => rw [hrec] at h; exact absurd h (by simp)
      | ok rs =>
        rw [hrec] at h
        simp only [Except.ok.injEq] at h
        rw [← h]
        refine List.Forall₂.cons ?_ (load_all_refs_spec fs rest rs hrec)
        unfold load_image_as_base64 at hl
        cases hfs : fs p with
        | none => rw [hfs] at hl; exact absurd hl (by simp)
        | some bytes =>
          rw [hfs] at hl
          simp only [Option.some.injEq] at hl
          rw [← hl]
          exact ⟨rfl, rfl⟩

/-- A successful reference load means every requested path in the list
exists. -/
theorem load_all_refs_mem (fs : String → Option (List Nat)) :
    ∀ (l : List String) (loaded : List (List Nat × String)),
      load_all_refs fs l = .ok loaded → ∀ p ∈ l, fs p ≠ none
  | [], _, _, p, hp => absurd hp (List.not_mem_nil p)
  | q :: rest, loaded, h, p, hp => by
    unfold load_all_refs at h
    cases hl : load_image_as_base64 fs q with
    | none => rw [hl] at h; exact absurd h (by simp)
    | some bm =>
      rw [hl] at h
      cases hrec : load_all_refs fs rest with
      | error e => rw [hrec] at h; exact absurd h (by simp)
      | ok rs =>
        rcases List.mem_cons.mp hp with hpq | hpr
        · rw [hpq]
          intro hnone
          rw [load_image_as_base64, hnone] at hl
          exact absurd hl (by simp)
        · exact load_all_refs_mem fs rest rs hrec p hpr

/-! ## Claim theorems -/

/-- C2: `detect_image_format` classifies by the fixed magic-byte
signatures — PNG for the 8-byte PNG signature, JPEG for a `FF D8` start,
WEBP for `RIFF` with `WEBP` at offset 8, GIF for `GIF87a`/`GIF89a` — and
returns the PNG default for every other buffer, including short ones; as
a total Lean function it raises no error and has no side effects. -/
theorem detect_image_format_cases (b : List Nat) :
    (b.take 8 = pngSignature → detect_image_format b = ("image/png", ".png")) ∧
    (b.take 2 = [0xFF, 0xD8] → detect_image_format b = ("image/jpeg", ".jpg")) ∧
    (b.take 4 = riffSignature → (b.drop 8).take 4 = webpSignature →
      detect_image_format b = ("image/webp", ".webp")) ∧
    ((b.take 6 = gif87Signature ∨ b.take 6 = gif89Signature) →
      detect_image_format b = ("image/gif", ".gif")) ∧
    (b.take 8 ≠ pngSignature → b.take 2 ≠ [0xFF, 0xD8] →
      ¬(b.take 4 = riffSignature ∧ (b.drop 8).take 4 = webpSignature) →
      b.take 6 ≠ gif87Signature → b.take 6 ≠ gif89Signature →
      detect_image_format b = ("image/png", ".png")) := by
  refine ⟨?_, ?_, ?_, ?_, ?_⟩
  · intro h
    rw [detect_image_format, if_pos h]
  · intro h2
    have hpng : b.take 8 ≠ pngSignature := by
      intro h8
      have := take_of_take 2 h8 (by omega)
      rw [h2] at this
      exact absurd this (by decide)
    rw [detect_image_format, if_neg hpng, if_pos h2]
  · intro h4 h8w
    have hpng : b.take 8 ≠ pngSignature := by
      intro h8
      have := take_of_take 4 h8 (by omega)
      rw [h4] at this
      exact absurd this (by decide)
    have hjpg : b.take 2 ≠ [0xFF, 0xD8] := by
      intro h2
      have := take_of_take 2 h4 (by omega)
      rw [h2] at this
      exact absurd this (by decide)
    rw [detect_image_format, if_neg hpng, if_neg hjpg, if_pos ⟨h4, h8w⟩]
  · intro h6
    have hpng : b.take 8 ≠ pngSignature := by
      intro h8
      have := take_of_take 6 h8 (by omega)
      rcases h6 with h | h <;> rw [h] at this <;> exact absurd this (by decide)
    have hjpg : b.take 2 ≠ [0xFF, 0xD8] := by
      intro h2
      rcases h6 with h | h <;>
        · have := take_of_take 2 h (by omega)
          rw [h2] at this
          exact absurd this (by decide)
    have hweb : ¬(b.take 4 = riffSignature ∧ (b.drop 8).take 4 = webpSignature) := by
      rintro ⟨h4, -⟩
      rcases h6 with h | h <;>
        · have := take_of_take 4 h (by omega)
          rw [h4] at this
          exact absurd this (by decide)
    rw [detect_image_format, if_neg hpng, if_neg hjpg, if_neg hweb, if_pos h6]
  · intro hpng hjpg hweb hg87 hg89
    rw [detect_image_format, if_neg hpng, if_neg hjpg, if_neg hweb,
      if_neg (show ¬(b.take 6 = gif87Signature ∨ b.take 6 = gif89Signature) by
        rintro (h | h)
        exacts [hg87 h, hg89 h])]

/-- Witness for C2 at a concrete JPEG-prefixed buffer. -/
theorem detect_image_format_cases_witness :
    detect_image_format [0xFF, 0xD8, 0x11, 0x22] = ("image/jpeg", ".jpg") :=
  (detect_image_format_cases [0xFF, 0xD8, 0x11, 0x22]).2.1 (by decide)

/-- C10: the two format tables are mutually consistent — `get_extension`
maps the MIME type the sniffer returns to the very extension the sniffer
paired with it, and maps every MIME type outside the four supported ones
to `".png"`. -/
theorem format_tables_consistent :
    (∀ b : List Nat, get_extension (detect_image_format b).1 = (detect_image_format b).2) ∧
    (∀ m : String, m ≠ "image/png" → m ≠ "image/jpeg" → m ≠ "image/webp" →
      m ≠ "image/gif" → get_extension m = ".png") := by
  constructor
  · exact get_ext_detect
  · intro m h1 h2 h3 h4
    rw [get_extension, if_neg h1, if_neg h2, if_neg h3, if_neg h4]

/-- Witness for C10 at a MIME type outside the table. -/
theorem format_tables_consistent_witness : get_extension "image/bmp" = ".png" :=
  format_tables_consistent.2 "image/bmp" (by decide) (by decide) (by decide) (by decide)

/-- C5: key resolution order — a non-empty explicit key wins; otherwise a
set, non-empty `GEMINI_API_KEY` is used; otherwise the placeholder is
obtained, is treated as absent, and `generate_image` takes the fatal
configuration-error exit before any network request. -/
theorem api_key_resolution (api_key env : Option String) :
    (∀ e, api_key = some e → e ≠ "" → e ≠ placeholderKey →
      resolve_api_key api_key env = some e) ∧
    ((api_key = none ∨ api_key = some "") →
      ∀ k, env = some k → k ≠ "" → k ≠ placeholderKey →
        resolve_api_key api_key env = some k) ∧
    ((api_key = none ∨ api_key = some "") → (env = none ∨ env = some "") →
      resolve_api_key api_key env = none) ∧
    (∀ (fs : String → Option (List Nat)) (prompt : String) (refs : List String)
      (a s : String), resolve_api_key api_key env = none →
        generate_image_pre api_key env fs prompt refs a s = .exitNoKey) := by
  refine ⟨?_, ?_, ?_, ?_⟩
  · intro e he hne hnp
    subst he
    simp [resolve_api_key, hne, hnp]
  · intro hak k hk hkne hknp
    subst hk
    rcases hak with h | h <;> subst h <;> simp [resolve_api_key, get_api_key, hkne, hknp]
  · intro hak henv
    rcases hak with h | h <;> subst h <;> rcases henv with h' | h' <;> subst h' <;>
      simp [resolve_api_key, get_api_key, placeholderKey]
  · intro fs prompt refs a s hnone
    unfold generate_image_pre
    rw [hnone]

/-- Witness for C5: no explicit key and no environment key yields the
fatal pre-network exit. -/
theorem api_key_resolution_witness :
    resolve_api_key none none = none ∧
      generate_image_pre none none (fun _ => none) "p" [] "1:1" "2K" = .exitNoKey := by
  have h := api_key_resolution none none
  have h3 := h.2.2.1 (Or.inl rfl) (Or.inl rfl)
  exact ⟨h3, h.2.2.2 (fun _ => none) "p" [] "1:1" "2K" h3⟩

/-- C8: a parsed response whose `candidates` list is missing or empty
makes `main` fail with the no-candidates diagnostic (stderr gets the error
and the dumped response, exit status is non-zero, no file is written and
nothing goes to stdout). -/
theorem no_candidates_fails (args_output : Option String) (prompt : String) (ts : Nat)
    (r : ApiResponse) (h : r.candidates = []) :
    main_after_response args_output prompt ts r = .failNoCandidates r := by
  obtain ⟨cands⟩ := r
  have hc : cands = [] := h
  subst hc
  rfl

/-- Witness for C8 at the empty response. -/
theorem no_candidates_fails_witness :
    main_after_response none "p" 0 ⟨[]⟩ = .failNoCandidates ⟨[]⟩ :=
  no_candidates_fails none "p" 0 ⟨[]⟩ rfl

/-- C7: the first response part carrying inline data determines the
extraction result — its decoded bytes are returned with the MIME type
sniffed from those bytes, and the mismatch note fires exactly when the
sniffed value differs from the reported one (defaulted to `image/png`);
the sniffed value is the one returned. -/
theorem extract_first_inline (pre post : List RespPart) (p : RespPart) (d : InlineData)
    (hpre : ∀ q ∈ pre, q.inlineData = none) (hp : p.inlineData = some d) :
    extract_image (pre ++ p :: post) =
      some (d.data, (detect_image_format d.data).1,
        decide ((detect_image_format d.data).1 ≠ d.mimeType.getD "image/png")) := by
  induction pre with
  | nil =>
    rw [List.nil_append]
    unfold extract_image
    rw [hp]
  | cons q rest ih =>
    have hq : q.inlineData = none := hpre q (List.mem_cons_self q rest)
    have hrest : ∀ x ∈ rest, x.inlineData = none :=
      fun x hx => hpre x (List.mem_cons_of_mem q hx)
    rw [List.cons_append]
    unfold extract_image
    rw [hq]
    exact ih hrest

/-- Witness for C7: a text-only part is skipped, the inline part wins, no
note on a matching MIME type. -/
theorem extract_first_inline_witness :
    extract_image [⟨none, some "hi"⟩, ⟨some ⟨some "image/png", pngSignature⟩, none⟩] =
      some (pngSignature, "image/png", false) := by
  have h := extract_first_inline [⟨none, some "hi"⟩] [] ⟨some ⟨some "image/png", pngSignature⟩, none⟩
    ⟨some "image/png", pngSignature⟩
    (by intro q hq; rw [List.mem_singleton] at hq; rw [hq]) rfl
  exact h.trans (by decide)

/-- C4: the warning fires exactly for more than 14 reference images; the
request built from a longer list equals the one built from its first 14
entries (a list of at most 14 is used unchanged); and the inline parts
follow the prompt text in the original order of the used entries. -/
theorem refs_truncated (fs : String → Option (List Nat)) (prompt : String)
    (refs : List String) :
    ((build_request_parts fs prompt refs).1 = decide (refs.length > 14)) ∧
    ((build_request_parts fs prompt refs).2 =
      (build_request_parts fs prompt (refs.take 14)).2) ∧
    (∀ parts, (build_request_parts fs prompt refs).2 = .ok parts →
      ∃ tail, parts = ReqPart.text prompt :: tail ∧
        List.Forall₂ (fun pth part => ∃ bytes, fs pth = some bytes ∧
            part = ReqPart.inlineData (detect_image_format bytes).1 bytes)
          (if refs.length > 14 then refs.take 14 else refs) tail) := by
  refine ⟨rfl, ?_, ?_⟩
  · by_cases h : refs.length > 14
    · have h14 : ¬((refs.take 14).length > 14) := by
        rw [List.length_take]
        omega
      simp [build_request_parts, h, h14]
    · rw [List.take_of_length_le (by omega)]
  · intro parts hok
    simp only [build_request_parts] at hok
    cases hl : load_all_refs fs (if refs.length > 14 then refs.take 14 else refs) with
    | error e => rw [hl] at hok; exact absurd hok (by simp)
    | ok loaded =>
      rw [hl] at hok
      simp only [Except.ok.injEq] at hok
      refine ⟨loaded.map (fun bm => ReqPart.inlineData bm.2 bm.1), hok.symm, ?_⟩
      rw [List.forall₂_map_right_iff]
      refine List.Forall₂.imp ?_ (load_all_refs_spec fs _ loaded hl)
      intro a bm hab
      exact ⟨bm.1, hab.1, by rw [hab.2]⟩

/-- Witness for C4: a single reference image is used unchanged, in order,
with its sniffed MIME type. -/
theorem refs_truncated_witness :
    ∃ tail, ([ReqPart.text "p", ReqPart.inlineData "image/png" pngSignature] : List ReqPart) =
        ReqPart.text "p" :: tail ∧
      List.Forall₂ (fun pth part => ∃ bytes,
          (fun _ => some pngSignature : String → Option (List Nat)) pth = some bytes ∧
            part = ReqPart.inlineData (detect_image_format bytes).1 bytes)
        (if (["a"] : List String).length > 14 then (["a"] : List String).take 14 else ["a"])
        tail :=
  (refs_truncated (fun _ => some pngSignature) "p" ["a"]).2.2
    [ReqPart.text "p", ReqPart.inlineData "image/png" pngSignature] (by rfl)

/-- C6 as stated is false: with fifteen reference paths of which only the
fifteenth is missing, the fifteenth is silently dropped by the truncation
and the HTTP POST is still issued — the process does not exit before the
network call. -/
theorem missing_ref_counterexample :
    "r15" ∈ refs15 ∧ fsMissing15 "r15" = none ∧
      (generate_image_pre (some "key") none fsMissing15 "p" refs15 "1:1" "2K").isRequest
        = true := by
  refine ⟨by decide, by decide, ?_⟩
  decide

/-- C6 (amended): if a reference image path among those actually used —
the first 14 after truncation — does not exist, the process exits with an
error before the HTTP POST is ever issued. -/
theorem missing_ref_no_request (api_key env : Option String)
    (fs : String → Option (List Nat)) (prompt : String) (refs : List String)
    (a s p : String) (hp : p ∈ (if refs.length > 14 then refs.take 14 else refs))
    (hmiss : fs p = none) :
    (generate_image_pre api_key env fs prompt refs a s).isRequest = false := by
  unfold generate_image_pre
  cases hk : resolve_api_key api_key env with
  | none => rfl
  | some key =>
    cases hb : (build_request_parts fs prompt refs).2 with
    | error e => rfl
    | ok parts =>
      exfalso
      simp only [build_request_parts] at hb
      cases hl : load_all_refs fs (if refs.length > 14 then refs.take 14 else refs) with
      | error e => rw [hl] at hb; exact absurd hb (by simp)
      | ok loaded => exact load_all_refs_mem fs _ loaded hl p hp hmiss

/-- Witness for the amended C6: one missing reference, no request. -/
theorem missing_ref_no_request_witness :
    (generate_image_pre (some "key") none (fun _ => none) "p" ["a"] "1:1" "2K").isRequest
      = false :=
  missing_ref_no_request (some "key") none (fun _ => none) "p" ["a"] "1:1" "2K" "a"
    (by decide) rfl

/-- C3: the auto-generated destination is `generated/<slug>-<timestamp>`;
the prompt `"A cute robot!"` slugs to `"a-cute-robot"`; a prompt that is
empty after stripping (in particular an empty or symbol-only prompt) slugs
to `"untitled"`; and every slug is at most 50 characters long. -/
theorem auto_output_slug :
    (∀ ts : Nat, autoOutputPath "A cute robot!" ts =
      ⟨"", ["generated", "a-cute-robot-" ++ toString ts]⟩) ∧
    (makeSlug "" = "untitled") ∧
    (∀ prompt : String,
      pyStrip (prompt.toList.filter (fun c => pyWordChar c || pySpace c || c == '-')) = [] →
        makeSlug prompt = "untitled") ∧
    (∀ prompt : String,
      (∀ c ∈ prompt.toList, (pyWordChar c || pySpace c || c == '-') = false) →
        makeSlug prompt = "untitled") ∧
    (∀ prompt : String, (makeSlug prompt).length ≤ 50) := by
  refine ⟨fun ts => rfl, rfl, ?_, ?_, ?_⟩
  · intro prompt h
    simp only [makeSlug]
    rw [h]
    rfl
  · intro prompt h
    have hk : prompt.toList.filter (fun c => pyWordChar c || pySpace c || c == '-') = [] := by
      rw [List.filter_eq_nil_iff]
      intro a ha
      rw [h a ha]
      exact Bool.false_ne_true
    simp only [makeSlug]
    rw [hk]
    rfl
  · intro prompt
    simp only [makeSlug]
    split_ifs with h
    · decide
    · show (List.take 50 _).length ≤ 50
      rw [List.length_take]
      exact Nat.min_le_left _ _

/-- Witness for C3 at the symbol-only prompt `"!?*"`. -/
theorem auto_output_slug_witness : makeSlug "!?*" = "untitled" :=
  auto_output_slug.2.2.2.1 "!?*" (by decide)

/-- C9 as stated is false: for caller-supplied output `"./x.png"` and a
PNG result, the caller's path already carries the sniffed extension
`".png"`, yet the note is emitted (`extNote = true`), because the rendered
final path `"x.png"` differs from the supplied string. -/
theorem ext_note_counterexample :
    pathSuffix (pyName (parsePath "./x.png")) = (detect_image_format pngSignature).2 ∧
    main_after_response (some "./x.png") "p" 0 samplePngResponse =
      .success ⟨"", ["x.png"]⟩ pngSignature true := by
  exact ⟨by decide, by decide⟩

/-- C9 (amended): the note is emitted iff the caller-supplied output
string differs from the rendered final path (when no output was supplied,
the note is always emitted); in particular no note is emitted when the
supplied string is exactly the final path, extension included. -/
theorem ext_note_iff (args_output : Option String) (prompt : String) (ts : Nat)
    (r : ApiResponse) (p : PyPath) (bytes : List Nat) (note : Bool)
    (h : main_after_response args_output prompt ts r = .success p bytes note) :
    (note = true ↔ ∀ o, args_output = some o → o ≠ renderPath p) ∧
    (∀ o, args_output = some o → o = renderPath p → note = false) := by
  have hnote : note = extNoteFlag args_output p := by
    unfold main_after_response at h
    cases hpr : process_response r with
    | exitNoCandidates resp => rw [hpr] at h; exact absurd h (by simp)
    | exitNoImage => rw [hpr] at h; exact absurd h (by simp)
    | ok b m n =>
      rw [hpr] at h
      have h2 : (match withSuffix (choose_base args_output prompt ts) (get_extension m) with
          | none => MainOutcome.failBadPath
          | some output_path =>
            MainOutcome.success output_path b (extNoteFlag args_output output_path)) =
          MainOutcome.success p bytes note := h
      cases hws : withSuffix (choose_base args_output prompt ts) (get_extension m) with
      | none => rw [hws] at h2; exact absurd h2 (by simp)
      | some q =>
        rw [hws] at h2
        simp only [MainOutcome.success.injEq] at h2
        rw [← h2.2.2, h2.1]
  constructor
  · rw [hnote]
    cases args_output with
    | none => simp [extNoteFlag]
    | some o => simp [extNoteFlag]
  · intro o ho heq
    rw [hnote, ho]
    simp [extNoteFlag, heq]

/-- Witness for the amended C9: supplying exactly the final path emits no
note. -/
theorem ext_note_iff_witness :
    main_after_response (some "x.png") "p" 0 samplePngResponse =
      .success ⟨"", ["x.png"]⟩ pngSignature false ∧ (false = true ↔
        ∀ o, (some "x.png" : Option String) = some o → o ≠ renderPath ⟨"", ["x.png"]⟩) := by
  have hmain : main_after_response (some "x.png") "p" 0 samplePngResponse =
      .success ⟨"", ["x.png"]⟩ pngSignature false := by decide
  exact ⟨hmain, (ext_note_iff (some "x.png") "p" 0 samplePngResponse _ _ _ hmain).1⟩

/-- C1: whenever `main` succeeds, the extension of the written output
path is the one the sniffer derives from the decoded image bytes that are
written — independent of the MIME type the API reported and of the
extension of the caller-supplied output path. -/
theorem written_extension_sniffed (args_output : Option String) (prompt : String) (ts : Nat)
    (r : ApiResponse) (p : PyPath) (bytes : List Nat) (note : Bool)
    (h : main_after_response args_output prompt ts r = .success p bytes note) :
    pathSuffix (pyName p) = (detect_image_format bytes).2 := by
  unfold main_after_response at h
  cases hpr : process_response r with
  | exitNoCandidates resp => rw [hpr] at h; exact absurd h (by simp)
  | exitNoImage => rw [hpr] at h; exact absurd h (by simp)
  | ok b m n =>
    rw [hpr] at h
    have hm : m = (detect_image_format b).1 := process_response_mime r b m n hpr
    have h2 : (match withSuffix (choose_base args_output prompt ts) (get_extension m) with
        | none => MainOutcome.failBadPath
        | some output_path =>
          MainOutcome.success output_path b (extNoteFlag args_output output_path)) =
        MainOutcome.success p bytes note := h
    cases hws : withSuffix (choose_base args_output prompt ts) (get_extension m) with
    | none => rw [hws] at h2; exact absurd h2 (by simp)
    | some q =>
      rw [hws] at h2
      simp only [MainOutcome.success.injEq] at h2
      obtain ⟨hq, hb, -⟩ := h2
      have hsuffix : pathSuffix (pyName p) = get_extension m := by
        rw [← hq]
        rcases get_extension_cases m with h4 | h4 | h4 | h4
        · rw [h4] at hws ⊢
          exact withSuffix_pathSuffix _ _ _ (choose_base_comps_ne args_output prompt ts) hws
            ['p', 'n', 'g'] (by decide) (by decide) (by decide)
        · rw [h4] at hws ⊢
          exact withSuffix_pathSuffix _ _ _ (choose_base_comps_ne args_output prompt ts) hws
            ['j', 'p', 'g'] (by decide) (by decide) (by decide)
        · rw [h4] at hws ⊢
          exact withSuffix_pathSuffix _ _ _ (choose_base_comps_ne args_output prompt ts) hws
            ['w', 'e', 'b', 'p'] (by decide) (by decide) (by decide)
        · rw [h4] at hws ⊢
          exact withSuffix_pathSuffix _ _ _ (choose_base_comps_ne args_output prompt ts) hws
            ['g', 'i', 'f'] (by decide) (by decide) (by decide)
      rw [hsuffix, hm, ← hb, get_ext_detect]

/-- Witness for C1: a caller-requested `.jpg` extension is replaced by the
sniffed `.png` for a PNG result. -/
theorem written_extension_sniffed_witness :
    main_after_response (some "out.jpg") "p" 0 samplePngResponse =
      .success ⟨"", ["out.png"]⟩ pngSignature true ∧
    pathSuffix (pyName (⟨"", ["out.png"]⟩ : PyPath)) = (detect_image_format pngSignature).2 := by
  have hmain : main_after_response (some "out.jpg") "p" 0 samplePngResponse =
      .success ⟨"", ["out.png"]⟩ pngSignature true := by decide
  exact ⟨hmain,
    written_extension_sniffed (some "out.jpg") "p" 0 samplePngResponse _ _ _ hmain⟩
